import Mathlib

/-!
Verification of the LawFlow decision engine.

Shallow embedding of the pure computational core of the repository:
`api/services/auto_teach.py`, `api/services/exam_simulator.py`,
`api/services/spaced_repetition.py`, `api/services/rewards_engine.py`.
Python floats are modelled as rationals (`ℚ`), Python ints as `ℤ`/`ℕ`,
`None`-able values as `Option`, and dicts as association lists.
Timestamps and database plumbing are not modelled; the functions below are
the state-transforming slices of the corresponding service functions.
-/

namespace LawFlow

/-- Python `int()` applied to a float/rational: truncation toward zero. -/
def pyInt (q : ℚ) : ℤ := if 0 ≤ q then ⌊q⌋ else ⌈q⌉

/-- Python `round()` on a rational: round half to even (banker's rounding);
away from the half-way points it agrees with ordinary rounding. -/
def pyRound (q : ℚ) : ℤ :=
  if q - ⌊q⌋ = 1/2 then (if ⌊q⌋ % 2 = 0 then ⌊q⌋ else ⌊q⌋ + 1) else round q

/-- Lookup in an association list (first binding wins), as Python `dict`
lookup on a dict represented by its insertion-ordered items. -/
def assoc_find {α : Type} (k : String) : List (String × α) → Option α
  | [] => none
  | (k2, v) :: rest => if k2 = k then some v else assoc_find k rest

/-- Python `dict.get(k, d)`: the binding of `k` if present, else default `d`. -/
def assoc_get {α : Type} (m : List (String × α)) (k : String) (d : α) : α :=
  match assoc_find k m with
  | some v => v
  | none => d

/-! ## auto_teach.py — Priority Engine and Teaching Plan Generator -/

/-- `auto_teach.compute_priority`: `exam_weight * (1.0 - mastery / 100.0)`. -/
def compute_priority (exam_weight mastery : ℚ) : ℚ :=
  let knowledge_gap := 1 - mastery / 100
  exam_weight * knowledge_gap

/-- `auto_teach.select_teaching_mode`: fixed mastery-band table returning
`(mode_key, reason)`; the `[75, 90)` band branches on `has_exam_data`. -/
def select_teaching_mode (mastery : ℚ) (has_exam_data : Bool) : String × String :=
  if mastery < 15 then
    ("explain", "Near-zero knowledge — need foundational concepts first (compressed teaching)")
  else if mastery < 35 then
    ("explain", "Low mastery — building core knowledge before testing understanding")
  else if mastery < 55 then
    ("socratic", "Moderate base — probing understanding to find and fill specific gaps")
  else if mastery < 75 then
    ("hypo", "Solid base — testing rule boundaries with fact variations")
  else if mastery < 90 then
    if has_exam_data then
      ("issue_spot", "Strong knowledge — exam-style issue spotting for test readiness")
    else
      ("irac", "Strong knowledge — structured analysis practice")
  else
    ("irac", "Near-mastery — full IRAC exam simulation to polish performance")

/-- Per-topic study-time estimate from `generate_teaching_plan`:
`gap = 100 - mastery_score; time_est = max(5, int(gap * 0.5))`. -/
def time_estimate (mastery : ℚ) : ℤ :=
  let gap := 100 - mastery
  max 5 (pyInt (gap * 0.5))

/-- Modelled from the spec: the spec states the per-topic study-time estimate
as `max(5, round((100 − mastery) × 0.5))`, i.e. with rounding rather than the
code's `int()` truncation. Stated for comparison with `time_estimate`. -/
def spec_time_estimate (mastery : ℚ) : ℤ :=
  max 5 (round ((100 - mastery) * 0.5))

/-- The six mastery bands of `select_teaching_mode`, as half-open intervals
given by the source's thresholds `<15, <35, <55, <75, <90, ≥90`. -/
def in_band (mastery : ℚ) : Fin 6 → Prop
  | 0 => mastery < 15
  | 1 => 15 ≤ mastery ∧ mastery < 35
  | 2 => 35 ≤ mastery ∧ mastery < 55
  | 3 => 55 ≤ mastery ∧ mastery < 75
  | 4 => 75 ≤ mastery ∧ mastery < 90
  | 5 => 90 ≤ mastery

/-- The mode keys produced by the seven syntactic branches of
`select_teaching_mode`, one representative input per branch. -/
def branch_modes : List String :=
  (([0, 20, 40, 60, 80, 95] : List ℚ).map (fun m => (select_teaching_mode m true).1))
    ++ [(select_teaching_mode 80 false).1]

/-- The band index actually taken by the source's `if/elif` chain. -/
def mastery_band (m : ℚ) : Fin 6 :=
  if m < 15 then 0 else if m < 35 then 1 else if m < 55 then 2
  else if m < 75 then 3 else if m < 90 then 4 else 5

theorem in_band_mastery_band (m : ℚ) : in_band m (mastery_band m) := by
  unfold mastery_band
  split_ifs with h1 h2 h3 h4 h5 <;> simp [in_band] <;>
    first
      | linarith
      | exact ⟨by linarith, by linarith⟩

theorem in_band_unique (m : ℚ) (i j : Fin 6) (hi : in_band m i) (hj : in_band m j) : i = j := by
  fin_cases i <;> fin_cases j <;> simp only [in_band] at hi hj <;> try rfl
  all_goals exfalso
  all_goals try obtain ⟨hi1, hi2⟩ := hi
  all_goals try obtain ⟨hj1, hj2⟩ := hj
  all_goals linarith

/-- C3: `compute_priority` equals `exam_weight × (1 − mastery/100)`, is
non-negative on the stated domain, vanishes at `mastery = 100` and at
`exam_weight = 0`, is strictly decreasing in mastery for fixed positive
exam weight, and is monotone in exam weight for fixed mastery. -/
theorem compute_priority_spec (w m : ℚ) (hw0 : 0 ≤ w) (hw1 : w ≤ 1)
    (hm0 : 0 ≤ m) (hm1 : m ≤ 100) :
    compute_priority w m = w * (1 - m / 100)
  ∧ 0 ≤ compute_priority w m
  ∧ compute_priority w 100 = 0
  ∧ compute_priority 0 m = 0
  ∧ (∀ m2, 0 < w → m < m2 → compute_priority w m2 < compute_priority w m)
  ∧ (∀ w2, w ≤ w2 → compute_priority w m ≤ compute_priority w2 m) := by
  refine ⟨rfl, ?_, by simp [compute_priority], by simp [compute_priority], ?_, ?_⟩
  · unfold compute_priority
    nlinarith
  · intro m2 hw hm
    unfold compute_priority
    nlinarith [mul_pos hw (sub_pos.mpr hm)]
  · intro w2 hww
    unfold compute_priority
    nlinarith [mul_nonneg (sub_nonneg.mpr hww) (by linarith : (0:ℚ) ≤ 1 - m / 100)]

/-- Witness for C3 at `exam_weight = 0.5`, `mastery = 50` (and `60`). -/
theorem compute_priority_spec_witness :
    0 ≤ compute_priority 0.5 50 ∧ compute_priority 0.5 60 < compute_priority 0.5 50 := by
  have h := compute_priority_spec 0.5 50 (by norm_num) (by norm_num) (by norm_num) (by norm_num)
  exact ⟨h.2.1, h.2.2.2.2.1 60 (by norm_num) (by norm_num)⟩

/-- C4 (amended): `select_teaching_mode` is total on `[0,100] × Bool`; every
mastery value lies in exactly one of the six bands `<15, <35, <55, <75, <90,
≥90`; the `[75,90)` band branches on `has_exam_data` between `issue_spot` and
`irac`; and the mode component always lies in the FIVE-element mode set
`{explain, socratic, hypo, issue_spot, irac}` (not six distinct modes). -/
theorem select_teaching_mode_bands (m : ℚ) (b : Bool) (h0 : 0 ≤ m) (h1 : m ≤ 100) :
    (∃! i : Fin 6, in_band m i)
  ∧ (select_teaching_mode m b).1 ∈ ["explain", "socratic", "hypo", "issue_spot", "irac"]
  ∧ (in_band m 4 → (select_teaching_mode m b).1 = if b then "issue_spot" else "irac") := by
  refine ⟨⟨mastery_band m, in_band_mastery_band m,
    fun j hj => in_band_unique m j (mastery_band m) hj (in_band_mastery_band m)⟩, ?_, ?_⟩
  · unfold select_teaching_mode
    split_ifs <;> simp
  · rintro ⟨h75, h90⟩
    unfold select_teaching_mode
    split_ifs <;> first | rfl | linarith

/-- Witness for C4 (amended) at `mastery = 80` with exam data. -/
theorem select_teaching_mode_bands_witness :
    (∃! i : Fin 6, in_band 80 i)
  ∧ (select_teaching_mode 80 true).1 ∈ ["explain", "socratic", "hypo", "issue_spot", "irac"]
  ∧ (in_band 80 4 → (select_teaching_mode 80 true).1 = if true then "issue_spot" else "irac") :=
  select_teaching_mode_bands 80 true (by norm_num) (by norm_num)

/-- C4 counterexample: the seven branches of `select_teaching_mode` emit only
FIVE distinct mode keys, not the six the claim states. -/
theorem select_mode_count_counterexample :
    branch_modes.dedup = ["explain", "socratic", "hypo", "issue_spot", "irac"]
  ∧ branch_modes.dedup.length = 5 ∧ branch_modes.dedup.length ≠ 6 := by decide

/-- C6 (amended): the study-time estimate is `max(5, ⌊(100 − mastery) × 0.5⌋)`
— Python `int()` truncates (floors, for the non-negative gap) rather than
rounding — and is always at least 5 minutes. -/
theorem time_estimate_amended (m : ℚ) (h : m ≤ 100) :
    time_estimate m = max 5 ⌊(100 - m) * 0.5⌋ ∧ 5 ≤ time_estimate m := by
  have hg : (0:ℚ) ≤ (100 - m) * 0.5 := by nlinarith
  refine ⟨by simp [time_estimate, pyInt, hg], ?_⟩
  simp only [time_estimate]
  exact le_max_left _ _

/-- Witness for C6 (amended) at `mastery = 89`. -/
theorem time_estimate_amended_witness :
    time_estimate 89 = max 5 ⌊((100:ℚ) - 89) * 0.5⌋ ∧ 5 ≤ time_estimate 89 :=
  time_estimate_amended 89 (by norm_num)

/-- C6 counterexample: at `mastery = 89` the code computes
`max(5, int(5.5)) = 5` while the spec's formula gives `max(5, round(5.5)) = 6`. -/
theorem time_estimate_round_counterexample :
    time_estimate 89 = 5 ∧ spec_time_estimate 89 = 6 ∧ (5:ℤ) ≠ 6 := by
  norm_num [time_estimate, spec_time_estimate, pyInt, round_eq]

/-! ## Teaching Plan Generator (`auto_teach.generate_teaching_plan`) -/

/-- A `TopicMastery` row as read by the plan/exam generators. -/
structure TopicState where
  topic : String
  display_name : String
  mastery_score : ℚ
deriving DecidableEq

/-- The `TeachingTarget` dataclass of `auto_teach.py`. -/
structure TeachingTarget where
  subject : String
  topic : String
  display_name : String
  priority_score : ℚ
  mastery : ℚ
  exam_weight : ℚ
  recommended_mode : String
  mode_reason : String
  knowledge_chunks_available : ℕ
  time_estimate_minutes : ℤ
deriving DecidableEq

/-- `default_weight = 1.0 / len(topics) if topics else 0.1` (identical line in
`generate_teaching_plan` and `generate_exam`). -/
def default_weight (topics : List TopicState) : ℚ :=
  if topics.isEmpty then 0.1 else 1 / topics.length

/-- The body of `generate_teaching_plan`'s per-topic loop: weight lookup with
per-topic default, priority, mode, and time estimate. `chunk_counts` models
the per-topic knowledge-chunk counts (`chunk_counts.get(t.topic, 0)`). -/
def build_target (subject : String) (exam_weights : List (String × ℚ))
    (has_exam_data : Bool) (dw : ℚ) (chunk_counts : List (String × ℕ))
    (t : TopicState) : TeachingTarget :=
  let exam_weight := assoc_get exam_weights t.topic dw
  let priority := compute_priority exam_weight t.mastery_score
  let mr := select_teaching_mode t.mastery_score has_exam_data
  { subject := subject
    topic := t.topic
    display_name := t.display_name
    priority_score := priority
    mastery := t.mastery_score
    exam_weight := exam_weight
    recommended_mode := mr.1
    mode_reason := mr.2
    knowledge_chunks_available := assoc_get chunk_counts t.topic 0
    time_estimate_minutes := time_estimate t.mastery_score }

/-- The time-budget loop of `generate_teaching_plan` (lines 216–224):
`for t in targets: if remaining <= 0: break; fitted.append(t);
remaining -= t.time_estimate_minutes`. -/
def fit_targets (remaining : ℤ) : List TeachingTarget → List TeachingTarget
  | [] => []
  | t :: ts =>
      if remaining ≤ 0 then []
      else t :: fit_targets (remaining - t.time_estimate_minutes) ts

/-- Total estimated minutes of a list of targets. -/
def sum_estimates (l : List TeachingTarget) : ℤ :=
  (l.map (fun t => t.time_estimate_minutes)).sum

/-- The target-list pipeline of `generate_teaching_plan`: build targets, sort
by priority descending (Python sorts are stable), truncate to `max_topics`,
then, if `available_minutes` is truthy (not `None` and not `0`), apply the
budget loop. -/
def teaching_plan_targets (subject : String) (exam_weights : List (String × ℚ))
    (chunk_counts : List (String × ℕ)) (topics : List TopicState)
    (max_topics : ℕ) (available_minutes : Option ℤ) : List TeachingTarget :=
  let has_exam_data := !exam_weights.isEmpty
  let dw := default_weight topics
  let targets := topics.map (build_target subject exam_weights has_exam_data dw chunk_counts)
  let sorted := targets.mergeSort (fun a b => decide (b.priority_score ≤ a.priority_score))
  let trimmed := sorted.take max_topics
  match available_minutes with
  | some a => if a = 0 then trimmed else fit_targets a trimmed
  | none => trimmed

/-! ## Assessment Engine (`exam_simulator.py`) -/

/-- One parsed question record from the generative collaborator's response
in `generate_exam` (absent JSON keys are `none`). -/
structure QData where
  question_type : Option String
  question_text : String
  options : Option (List String)
  correct_answer : Option String
  topic : Option String
  difficulty : Option ℤ
deriving DecidableEq

/-- An `AssessmentQuestion` row as created by `generate_exam`. -/
structure AssessmentQuestion where
  question_index : ℕ
  question_type : String
  question_text : String
  options : Option (List String)
  correct_answer : Option String
  subject : String
  topic : Option String
  difficulty : ℤ
  score : Option ℚ := none
  is_correct : Option Bool := none
deriving DecidableEq

/-- An `Assessment` row as created by `generate_exam`. -/
structure Assessment where
  assessment_type : String
  subject : String
  topics : List String
  total_questions : ℕ
  time_limit_minutes : ℤ
  is_timed : Bool
deriving DecidableEq

/-- The persistence step of `generate_exam` (lines 294–330): one
`AssessmentQuestion` per parsed record, `total_questions = len(questions_data)`.
The requested question count is not consulted here. -/
def persist_exam (subject exam_format : String) (time_minutes : ℤ)
    (questions_data : List QData) : Assessment × List AssessmentQuestion :=
  ({ assessment_type := exam_format
     subject := subject
     topics := (questions_data.map (fun q => q.topic.getD "")).dedup
     total_questions := questions_data.length
     time_limit_minutes := time_minutes
     is_timed := decide (time_minutes > 0) },
   questions_data.enum.map (fun iq =>
     { question_index := iq.1
       question_type := iq.2.question_type.getD "essay"
       question_text := iq.2.question_text
       options := match iq.2.options with
         | some l => if l.isEmpty then none else some l
         | none => none
       correct_answer := iq.2.correct_answer
       subject := subject
       topic := iq.2.topic
       difficulty := iq.2.difficulty.getD 50 }))

/-- The `topic_priorities` entry built in `generate_exam` (lines 198–210). -/
structure ExamTopicPriority where
  topic : String
  display_name : String
  weight : ℚ
  mastery : ℚ
  priority : ℚ
deriving DecidableEq

/-- Per-topic weight/priority computation of `generate_exam`:
`w = exam_weights.get(t.topic, default_weight); compute_priority(w, mastery)`. -/
def exam_topic_priority (exam_weights : List (String × ℚ)) (dw : ℚ)
    (t : TopicState) : ExamTopicPriority :=
  let w := assoc_get exam_weights t.topic dw
  { topic := t.topic
    display_name := t.display_name
    weight := w
    mastery := t.mastery_score
    priority := compute_priority w t.mastery_score }

/-- `exam_simulator.IRAC_WEIGHTS`. -/
def IRAC_WEIGHTS : List (String × ℚ) :=
  [("issue_spotting", 0.30), ("rule_accuracy", 0.20),
   ("application_depth", 0.35), ("conclusion_support", 0.15)]

/-- The collaborator's parsed essay-grading response as consumed by
`_grade_essay`: four sub-scores plus its own (ignored) overall figure. -/
structure EssayGrading where
  issue_spotting : Option ℚ
  rule_accuracy : Option ℚ
  application_depth : Option ℚ
  conclusion_support : Option ℚ
  overall_score : Option ℚ
deriving DecidableEq

/-- `_grade_essay`'s local recomputation (lines 452–458), stored verbatim as
the question's `score`: `sum of grading.get(k, 50) * IRAC_WEIGHTS[k]` (all
four keys are present in `IRAC_WEIGHTS`, so the lookup default is inert). -/
def essay_weighted_score (g : EssayGrading) : ℚ :=
  g.issue_spotting.getD 50 * assoc_get IRAC_WEIGHTS "issue_spotting" 0
  + g.rule_accuracy.getD 50 * assoc_get IRAC_WEIGHTS "rule_accuracy" 0
  + g.application_depth.getD 50 * assoc_get IRAC_WEIGHTS "application_depth" 0
  + g.conclusion_support.getD 50 * assoc_get IRAC_WEIGHTS "conclusion_support" 0

/-! ## Theorems: essay grading, exam persistence, budget loop, default weight -/

/-- C1: for every parsed essay-grading response carrying four sub-scores
(with or without an `overall_score` field), the stored score is the fixed
weighted sum `0.30·issue_spotting + 0.20·rule_accuracy + 0.35·application_depth
+ 0.15·conclusion_support`, and it does not depend on the collaborator's own
overall figure. -/
theorem essay_score_recomputed (a b c d : ℚ) (ov : Option ℚ) :
    essay_weighted_score ⟨some a, some b, some c, some d, ov⟩
        = 0.30 * a + 0.20 * b + 0.35 * c + 0.15 * d
  ∧ essay_weighted_score ⟨some a, some b, some c, some d, ov⟩
        = essay_weighted_score ⟨some a, some b, some c, some d, none⟩ := by
  have h1 : assoc_get IRAC_WEIGHTS "issue_spotting" 0 = 0.30 := rfl
  have h2 : assoc_get IRAC_WEIGHTS "rule_accuracy" 0 = 0.20 := rfl
  have h3 : assoc_get IRAC_WEIGHTS "application_depth" 0 = 0.35 := rfl
  have h4 : assoc_get IRAC_WEIGHTS "conclusion_support" 0 = 0.15 := rfl
  refine ⟨?_, rfl⟩
  simp only [essay_weighted_score, h1, h2, h3, h4, Option.getD_some]
  ring

/-- C7 (amended): `generate_exam` persists one question per parsed collaborator
record — `total_questions` and the persisted question list track the parsed
response's length, not the requested count. -/
theorem persist_exam_count_amended (subject exam_format : String) (tm : ℤ)
    (data : List QData) :
    (persist_exam subject exam_format tm data).2.length = data.length
  ∧ (persist_exam subject exam_format tm data).1.total_questions = data.length := by
  refine ⟨?_, rfl⟩
  simp [persist_exam]

/-- A 3-record parsed collaborator response, used against a requested count
of 5 questions. -/
def qdata_three : List QData :=
  [⟨some "mc", "Q1", some ["A) yes", "B) no", "C) maybe", "D) depends"],
      some "A", some "negligence", some 40⟩,
   ⟨some "essay", "Q2", none, some "model outline", some "battery", some 60⟩,
   ⟨some "issue_spot", "Q3", none, some "issues list", some "duty", none⟩]

/-- C7 counterexample: a successful `generate_exam` call requesting 5
questions whose parsed response holds 3 records persists 3 questions (and
`total_questions = 3`), not 5. -/
theorem persist_exam_count_counterexample :
    (persist_exam "torts" "mixed" 60 qdata_three).2.length = 3
  ∧ (persist_exam "torts" "mixed" 60 qdata_three).1.total_questions = 3
  ∧ (3 : ℕ) ≠ 5 := by decide

theorem fit_targets_is_prefix (avail : ℤ) (ts : List TeachingTarget) :
    ∃ rest, fit_targets avail ts ++ rest = ts := by
  induction ts generalizing avail with
  | nil => exact ⟨[], rfl⟩
  | cons t ts ih =>
      by_cases h : avail ≤ 0
      · exact ⟨t :: ts, by simp [fit_targets, h]⟩
      · obtain ⟨rest, hrest⟩ := ih (avail - t.time_estimate_minutes)
        exact ⟨rest, by simp [fit_targets, h, hrest]⟩

theorem fit_targets_partial_sums (avail : ℤ) (ts : List TeachingTarget) :
    ∀ k, k < (fit_targets avail ts).length →
      0 < avail - sum_estimates ((fit_targets avail ts).take k) := by
  induction ts generalizing avail with
  | nil => intro k hk; simp [fit_targets] at hk
  | cons t ts ih =>
      intro k hk
      by_cases h : avail ≤ 0
      · simp [fit_targets, h] at hk
      · simp only [fit_targets, if_neg h] at hk ⊢
        match k with
        | 0 => simpa [sum_estimates] using lt_of_not_le h
        | k + 1 =>
            have hk2 : k < (fit_targets (avail - t.time_estimate_minutes) ts).length := by
              simpa using hk
            have := ih (avail - t.time_estimate_minutes) k hk2
            simp only [List.take_succ_cons, sum_estimates, List.map_cons, List.sum_cons]
            simp only [sum_estimates] at this
            linarith

theorem fit_targets_stops_exhausted (avail : ℤ) (ts : List TeachingTarget) :
    (fit_targets avail ts).length < ts.length →
      avail - sum_estimates (fit_targets avail ts) ≤ 0 := by
  induction ts generalizing avail with
  | nil => intro hk; simp [fit_targets] at hk
  | cons t ts ih =>
      intro hk
      by_cases h : avail ≤ 0
      · simpa [fit_targets, h, sum_estimates] using h
      · simp only [fit_targets, if_neg h, List.length_cons, add_lt_add_iff_right] at hk ⊢
        have := ih (avail - t.time_estimate_minutes) hk
        simp only [sum_estimates, List.map_cons, List.sum_cons] at this ⊢
        linarith

/-- C5 (amended): with a non-zero `available_minutes = a`, the plan equals the
budget loop applied to the priority-sorted, `max_topics`-truncated list; it is
a prefix of that list; every included topic was added while the remaining
budget was still positive (so the estimates of all included topics except the
last sum to less than `a`); and the loop stops short of the list only once the
budget is exhausted (`≤ 0`) — the total of the included estimates may
therefore exceed `a` by up to the last topic's estimate. -/
theorem teaching_plan_budget_amended (subject : String)
    (exam_weights : List (String × ℚ)) (chunk_counts : List (String × ℕ))
    (topics : List TopicState) (max_topics : ℕ) (a : ℤ) (ha : a ≠ 0) :
    teaching_plan_targets subject exam_weights chunk_counts topics max_topics (some a)
        = fit_targets a (teaching_plan_targets subject exam_weights chunk_counts
            topics max_topics none)
  ∧ (∃ rest, teaching_plan_targets subject exam_weights chunk_counts topics
        max_topics (some a) ++ rest
        = teaching_plan_targets subject exam_weights chunk_counts topics max_topics none)
  ∧ (∀ k, k < (teaching_plan_targets subject exam_weights chunk_counts topics
        max_topics (some a)).length →
      0 < a - sum_estimates ((teaching_plan_targets subject exam_weights chunk_counts
        topics max_topics (some a)).take k))
  ∧ ((teaching_plan_targets subject exam_weights chunk_counts topics
        max_topics (some a)).length
      < (teaching_plan_targets subject exam_weights chunk_counts topics
        max_topics none).length →
      a - sum_estimates (teaching_plan_targets subject exam_weights chunk_counts
        topics max_topics (some a)) ≤ 0) := by
  have heq : teaching_plan_targets subject exam_weights chunk_counts topics
      max_topics (some a)
      = fit_targets a (teaching_plan_targets subject exam_weights chunk_counts
          topics max_topics none) := by
    simp [teaching_plan_targets, ha]
  refine ⟨heq, ?_, ?_, ?_⟩
  · rw [heq]; exact fit_targets_is_prefix a _
  · rw [heq]; exact fit_targets_partial_sums a _
  · rw [heq]; exact fit_targets_stops_exhausted a _

/-- Witness for C5 (amended) at one topic, budget 10 minutes. -/
theorem teaching_plan_budget_amended_witness :
    teaching_plan_targets "torts" [] [] [⟨"negligence", "Negligence", 84⟩] 10 (some 10)
        = fit_targets 10 (teaching_plan_targets "torts" [] [] [⟨"negligence", "Negligence", 84⟩] 10 none)
  ∧ (0 : ℤ) < 10 - sum_estimates ((teaching_plan_targets "torts" [] []
        [⟨"negligence", "Negligence", 84⟩] 10 (some 10)).take 0) := by
  have h := teaching_plan_budget_amended "torts" [] [] [⟨"negligence", "Negligence", 84⟩]
    10 10 (by norm_num)
  refine ⟨h.1, h.2.2.1 0 ?_⟩
  simp [teaching_plan_targets, fit_targets, build_target, time_estimate, pyInt]

/-- Two concrete sorted targets, each estimated at 8 minutes
(mastery 84 → `max(5, int(16 · 0.5)) = 8`). -/
def target_A : TeachingTarget :=
  { subject := "torts", topic := "negligence", display_name := "Negligence",
    priority_score := 0.08, mastery := 84, exam_weight := 0.5,
    recommended_mode := "issue_spot",
    mode_reason := "Strong knowledge — exam-style issue spotting for test readiness",
    knowledge_chunks_available := 0, time_estimate_minutes := 8 }

def target_B : TeachingTarget :=
  { subject := "torts", topic := "battery", display_name := "Battery",
    priority_score := 0.064, mastery := 84, exam_weight := 0.4,
    recommended_mode := "issue_spot",
    mode_reason := "Strong knowledge — exam-style issue spotting for test readiness",
    knowledge_chunks_available := 0, time_estimate_minutes := 8 }

/-- C5 counterexample: with a 10-minute budget and two 8-minute topics, the
loop keeps BOTH (it only stops once the remaining budget is `≤ 0`), so the
plan's total estimate is 16 > 10 even though the first topic fits. -/
theorem fit_targets_budget_counterexample :
    fit_targets 10 [target_A, target_B] = [target_A, target_B]
  ∧ target_A.time_estimate_minutes ≤ 10
  ∧ ¬ sum_estimates (fit_targets 10 [target_A, target_B]) ≤ 10 := by
  norm_num [fit_targets, sum_estimates, target_A, target_B]

/-- C10: in both `generate_teaching_plan` and `generate_exam`, a topic absent
from the aggregated exam-weight map receives the per-topic default weight
`1/topic_count` — even when the map is non-empty — and hence a strictly
positive priority whenever its mastery is below 100. -/
theorem default_weight_per_topic (subject : String) (b : Bool)
    (exam_weights : List (String × ℚ)) (chunk_counts : List (String × ℕ))
    (topics : List TopicState) (t : TopicState)
    (hmem : t ∈ topics)
    (habsent : assoc_find t.topic exam_weights = none)
    (hm0 : 0 ≤ t.mastery_score) (hm1 : t.mastery_score < 100) :
    (build_target subject exam_weights b (default_weight topics) chunk_counts t).exam_weight
        = 1 / topics.length
  ∧ (exam_topic_priority exam_weights (default_weight topics) t).weight
        = 1 / topics.length
  ∧ 0 < (build_target subject exam_weights b (default_weight topics)
        chunk_counts t).priority_score
  ∧ 0 < (exam_topic_priority exam_weights (default_weight topics) t).priority := by
  have hne : ¬ topics.isEmpty := by
    cases topics with
    | nil => cases hmem
    | cons x xs => simp
  have hdw : default_weight topics = 1 / topics.length := by
    simp [default_weight, hne]
  have hw : assoc_get exam_weights t.topic (default_weight topics) = 1 / topics.length := by
    simp [assoc_get, habsent, hdw]
  have hlen : 0 < (topics.length : ℚ) := by
    cases topics with
    | nil => cases hmem
    | cons x xs =>
        simp only [List.length_cons]
        exact_mod_cast Nat.succ_pos xs.length
  have hpos : 0 < compute_priority (1 / topics.length) t.mastery_score := by
    have h1 : (0:ℚ) < 1 / topics.length := one_div_pos.mpr hlen
    have h2 : (0:ℚ) < 1 - t.mastery_score / 100 := by linarith
    simp only [compute_priority]
    exact mul_pos h1 h2
  refine ⟨by simp [build_target, hw], by simp [exam_topic_priority, hw], ?_, ?_⟩
  · simpa [build_target, hw] using hpos
  · simpa [exam_topic_priority, hw] using hpos

/-- Witness for C10: topic `duty` is absent from a non-empty weight map and
still gets weight 1/2 and positive priority. -/
theorem default_weight_per_topic_witness :
    (build_target "torts" [("negligence", 0.7)] true
        (default_weight [⟨"negligence", "Negligence", 30⟩, ⟨"duty", "Duty", 40⟩])
        [] ⟨"duty", "Duty", 40⟩).exam_weight = 1 / 2
  ∧ 0 < (exam_topic_priority [("negligence", 0.7)]
        (default_weight [⟨"negligence", "Negligence", 30⟩, ⟨"duty", "Duty", 40⟩])
        ⟨"duty", "Duty", 40⟩).priority := by
  have h := default_weight_per_topic "torts" true [("negligence", 0.7)] []
    [⟨"negligence", "Negligence", 30⟩, ⟨"duty", "Duty", 40⟩] ⟨"duty", "Duty", 40⟩
    (by simp) (by simp [assoc_find]) (by norm_num) (by norm_num)
  exact ⟨by simpa using h.1, h.2.2.2⟩

/-! ## Rewards engine (`rewards_engine.award_points`) -/

/-- The streak dict returned by `_update_streak`. -/
structure StreakInfo where
  current_streak : ℤ
  bonus : ℤ
  is_new_day : Bool
deriving DecidableEq

/-- The `result` dict of `award_points`. `level_up` carries
`(old_level, new_level, new_title)` when present. -/
structure AwardResult where
  points_awarded : ℤ
  bonus : Option ℤ
  streak_info : Option StreakInfo
  new_balance : ℤ
  achievements_unlocked : List String
  level_up : Option (ℤ × ℤ × String)
deriving DecidableEq

/-- The initial `result` dict of `award_points` (lines 54–61): note that
`points_awarded` starts at `base_amount`, not at 0. -/
def init_award_result (base_amount : ℤ) : AwardResult :=
  { points_awarded := base_amount
    bonus := none
    streak_info := none
    new_balance := 0
    achievements_unlocked := []
    level_up := none }

/-- One internal step of the `try:` body of `award_points`: either a mutation
of the accumulating result dict (ledger insert, bonus roll, streak update,
achievement checks, profile/level update, balance computation) or a raised
exception. -/
inductive AwardStep where
  | mutate (f : AwardResult → AwardResult)
  | raise

/-- The top-level `try/except` control flow of `award_points`: the steps run
in order, each mutating the result dict; the first exception aborts the
remaining steps, is swallowed by the `except` clause (which only logs), and
the result accumulated so far is returned. -/
def run_award_steps : AwardResult → List AwardStep → AwardResult
  | r, [] => r
  | r, AwardStep.mutate f :: rest => run_award_steps (f r) rest
  | r, AwardStep.raise :: _ => r

/-- `rewards_engine.award_points` as a function of its internal step sequence. -/
def award_points (base_amount : ℤ) (steps : List AwardStep) : AwardResult :=
  run_award_steps (init_award_result base_amount) steps

theorem run_award_steps_stops (r : AwardResult) (pre rest : List AwardStep)
    (h : AwardStep.raise ∉ pre) :
    run_award_steps r (pre ++ AwardStep.raise :: rest) = run_award_steps r pre := by
  induction pre generalizing r with
  | nil => simp [run_award_steps]
  | cons s pre ih =>
      cases s with
      | mutate f =>
          simp only [List.cons_append, run_award_steps]
          exact ih (f r) (fun hm => h (List.mem_cons_of_mem _ hm))
      | raise => exact absurd (List.mem_cons_self _ _) h

/-- C8 (amended): every internal exception of `award_points` is caught and
the call returns normally, but the returned result is the one accumulated
before the failure, not a zero-point no-op: `points_awarded` starts at
`base_amount`, and mutations applied before the failing step remain visible. -/
theorem award_points_caught_amended (base : ℤ) (pre rest : List AwardStep)
    (hpre : AwardStep.raise ∉ pre) :
    award_points base (pre ++ AwardStep.raise :: rest)
        = run_award_steps (init_award_result base) pre
  ∧ (award_points base (AwardStep.raise :: rest)).points_awarded = base := by
  exact ⟨run_award_steps_stops _ pre rest hpre, rfl⟩

/-- Witness for C8 (amended): base 50, one mutation, then an exception. -/
theorem award_points_caught_amended_witness :
    award_points 50 ([AwardStep.mutate (fun r => { r with new_balance := 50 })]
        ++ AwardStep.raise :: [])
      = run_award_steps (init_award_result 50)
          [AwardStep.mutate (fun r => { r with new_balance := 50 })]
  ∧ (award_points 50 (AwardStep.raise :: [])).points_awarded = 50 :=
  award_points_caught_amended 50
    [AwardStep.mutate (fun r => { r with new_balance := 50 })] [] (by simp)

/-- C8 counterexample: with `base_amount = 50` and the very first internal
step raising, the claim's zero-point no-op result does not materialize —
`points_awarded` in the returned result is 50, not 0. -/
theorem award_points_zero_counterexample :
    (award_points 50 [AwardStep.raise]).points_awarded = 50 ∧ (50 : ℤ) ≠ 0 :=
  ⟨rfl, by norm_num⟩

/-! ## Spaced repetition (`spaced_repetition.sm2_update`) -/

/-- A `SpacedRepetitionCard`'s scheduling state (the `next_review` /
`last_reviewed` timestamps, pure clock effects, are omitted). -/
structure SpacedRepetitionCard where
  ease_factor : ℚ
  interval_days : ℤ
  repetitions : ℤ
deriving DecidableEq

/-- `spaced_repetition.sm2_update`: clamp quality to `[0,5]`, update the ease
factor with floor 1.3, then reset (quality < 3) or grow the interval. -/
def sm2_update (card : SpacedRepetitionCard) (quality : ℤ) : SpacedRepetitionCard :=
  let q := max 0 (min 5 quality)
  let ef := card.ease_factor
    + (0.1 - ((5 - q : ℤ) : ℚ) * (0.08 + ((5 - q : ℤ) : ℚ) * 0.02))
  let ease := max 1.3 ef
  if q < 3 then
    { ease_factor := ease, repetitions := 0, interval_days := 1 }
  else
    let interval : ℤ :=
      if card.repetitions = 0 then 1
      else if card.repetitions = 1 then 3
      else pyRound ((card.interval_days : ℚ) * ease)
    { ease_factor := ease, repetitions := card.repetitions + 1, interval_days := interval }

theorem sm2_update_ease_ge (c : SpacedRepetitionCard) (q : ℤ) :
    1.3 ≤ (sm2_update c q).ease_factor := by
  unfold sm2_update
  dsimp only
  split
  · exact le_max_left _ _
  · exact le_max_left _ _

/-- C9: starting from any card with `ease_factor ≥ 1.3`, every state reached
along any finite sequence of (arbitrary integer) review qualities keeps
`ease_factor ≥ 1.3`. -/
theorem sm2_ease_floor (c : SpacedRepetitionCard) (qs : List ℤ)
    (h : 1.3 ≤ c.ease_factor) :
    ∀ c2 ∈ List.scanl sm2_update c qs, 1.3 ≤ c2.ease_factor := by
  induction qs generalizing c with
  | nil =>
      intro c2 hc2
      simp only [List.scanl, List.mem_singleton] at hc2
      rw [hc2]; exact h
  | cons q qs ih =>
      intro c2 hc2
      simp only [List.scanl, List.mem_cons] at hc2
      rcases hc2 with hc2 | hc2
      · rw [hc2]; exact h
      · exact ih (sm2_update c q) (sm2_update_ease_ge c q) c2 hc2

/-- Witness for C9: a card at ease 2.5 reviewed with quality 0. -/
theorem sm2_ease_floor_witness :
    (1.3 : ℚ) ≤ (2.5 : ℚ) ∧ 1.3 ≤ (sm2_update ⟨2.5, 6, 2⟩ 0).ease_factor :=
  ⟨by norm_num,
   sm2_ease_floor ⟨2.5, 6, 2⟩ [0] (by norm_num) _ (by simp [List.scanl])⟩

/-! ## Exam completion → mastery update
(`exam_simulator.complete_exam` and `_update_mastery_from_exam`) -/

/-- A `TopicMastery` row as mutated by `_update_mastery_from_exam`
(timestamps omitted). -/
structure TopicMasteryRow where
  topic : String
  mastery_score : ℚ
  exposure_count : ℤ
  correct_count : ℤ
  incorrect_count : ℤ
deriving DecidableEq

/-- The per-row body of `_update_mastery_from_exam`'s loop:
`new_mastery = mastery * 0.6 + avg_score * 0.4`, clamped via
`max(0, min(100, ·))`; exposure and correct/incorrect counters advance. -/
def update_topic_row (scores : List ℚ) (r : TopicMasteryRow) : TopicMasteryRow :=
  let avg_score := scores.sum / scores.length
  let new_mastery := r.mastery_score * 0.6 + avg_score * 0.4
  { r with
    mastery_score := max 0 (min 100 new_mastery)
    exposure_count := r.exposure_count + scores.length
    correct_count := r.correct_count + (scores.filter (fun s => 60 ≤ s)).length
    incorrect_count := r.incorrect_count + (scores.filter (fun s => s < 60)).length }

/-- `.first()`-style row update: only the first row keyed by the topic is
updated; when no row matches, the topic is skipped (`if not topic: continue`). -/
def update_first (t : String) (scores : List ℚ) :
    List TopicMasteryRow → List TopicMasteryRow
  | [] => []
  | r :: rest =>
      if r.topic = t then update_topic_row scores r :: rest
      else r :: update_first t scores rest

/-- The per-topic loop of `_update_mastery_from_exam` over `topic_scores`
(the subject-level aggregate that follows does not touch topic rows). -/
def update_mastery_from_exam (topic_scores : List (String × List ℚ))
    (store : List TopicMasteryRow) : List TopicMasteryRow :=
  topic_scores.foldl (fun st p => update_first p.1 p.2 st) store

/-- `topic_scores.setdefault(topic, []).append(score)` on an
insertion-ordered dict represented as an association list. -/
def append_score : List (String × List ℚ) → String → ℚ → List (String × List ℚ)
  | [], t, s => [(t, [s])]
  | (k, v) :: rest, t, s =>
      if k = t then (k, v ++ [s]) :: rest else (k, v) :: append_score rest t s

/-- One iteration of `complete_exam`'s breakdown loop (lines 563–566): a
question contributes only when its topic is truthy (present, non-empty) and
its score is not `None`. -/
def build_step (acc : List (String × List ℚ)) (q : AssessmentQuestion) :
    List (String × List ℚ) :=
  match q.topic, q.score with
  | some t, some s => if t = "" then acc else append_score acc t s
  | _, _ => acc

/-- The `topic_scores` dict built by `complete_exam`. -/
def build_topic_scores (questions : List AssessmentQuestion) :
    List (String × List ℚ) :=
  questions.foldl build_step []

/-- The mastery-update slice of `complete_exam`. -/
def complete_exam_mastery (questions : List AssessmentQuestion)
    (store : List TopicMasteryRow) : List TopicMasteryRow :=
  update_mastery_from_exam (build_topic_scores questions) store

/-- The graded scores of topic `t` among an assessment's questions, in
question order. -/
def graded_scores (t : String) (questions : List AssessmentQuestion) : List ℚ :=
  questions.filterMap (fun q => if q.topic = some t then q.score else none)

/-- SQLAlchemy `.filter_by(topic=t).first()` over the in-memory store. -/
def find_topic (t : String) : List TopicMasteryRow → Option TopicMasteryRow
  | [] => none
  | r :: rest => if r.topic = t then some r else find_topic t rest

/-- The key sequence of an association list. -/
def keys {α : Type} (l : List (String × α)) : List String := l.map Prod.fst

theorem update_topic_row_topic (ss : List ℚ) (r : TopicMasteryRow) :
    (update_topic_row ss r).topic = r.topic := rfl

theorem assoc_find_append_score (acc : List (String × List ℚ)) (t t2 : String) (s : ℚ) :
    assoc_find t (append_score acc t2 s)
      = if t2 = t then some ((assoc_find t acc).getD [] ++ [s])
        else assoc_find t acc := by
  induction acc with
  | nil =>
      by_cases h : t2 = t <;> simp [append_score, assoc_find, h]
  | cons p rest ih =>
      obtain ⟨k, v⟩ := p
      by_cases hk2 : k = t2
      · subst hk2
        by_cases hkt : k = t
        · subst hkt; simp [append_score, assoc_find]
        · simp [append_score, assoc_find, hkt]
      · by_cases hkt : k = t
        · subst hkt
          have hne : t2 ≠ k := fun h => hk2 h.symm
          simp [append_score, assoc_find, hk2, hne]
        · simp [append_score, assoc_find, hk2, hkt, ih]

theorem assoc_find_build_aux (t : String) (ht : t ≠ "") (qs : List AssessmentQuestion) :
    ∀ acc : List (String × List ℚ),
    assoc_find t (qs.foldl build_step acc)
      = match assoc_find t acc with
        | some l => some (l ++ graded_scores t qs)
        | none => if graded_scores t qs = [] then none
                  else some (graded_scores t qs) := by
  induction qs with
  | nil =>
      intro acc
      cases h : assoc_find t acc <;> simp [graded_scores, h]
  | cons q qs ih =>
      intro acc
      simp only [List.foldl_cons]
      rw [ih (build_step acc q)]
      cases hqt : q.topic with
      | none =>
          have hb : build_step acc q = acc := by simp [build_step, hqt]
          have hg : graded_scores t (q :: qs) = graded_scores t qs := by
            simp [graded_scores, List.filterMap_cons, hqt]
          rw [hb, hg]
      | some t2 =>
          cases hqs : q.score with
          | none =>
              have hb : build_step acc q = acc := by simp [build_step, hqt, hqs]
              have hg : graded_scores t (q :: qs) = graded_scores t qs := by
                by_cases h2 : t2 = t <;>
                  simp [graded_scores, List.filterMap_cons, hqt, hqs, h2]
              rw [hb, hg]
          | some s =>
              by_cases hemp : t2 = ""
              · subst hemp
                have hb : build_step acc q = acc := by simp [build_step, hqt, hqs]
                have hg : graded_scores t (q :: qs) = graded_scores t qs := by
                  have : ¬ ((some "" : Option String) = some t) := by
                    simp; exact fun h => ht h.symm
                  simp [graded_scores, List.filterMap_cons, hqt, this]
                rw [hb, hg]
              · by_cases h2 : t2 = t
                · subst h2
                  have hb : build_step acc q = append_score acc t2 s := by
                    simp [build_step, hqt, hqs, hemp]
                  have hg : graded_scores t2 (q :: qs) = s :: graded_scores t2 qs := by
                    simp [graded_scores, List.filterMap_cons, hqt, hqs]
                  rw [hb, hg, assoc_find_append_score, if_pos rfl]
                  cases h3 : assoc_find t2 acc <;> simp [h3]
                · have hb : build_step acc q = append_score acc t2 s := by
                    simp [build_step, hqt, hqs, hemp]
                  have hg : graded_scores t (q :: qs) = graded_scores t qs := by
                    simp [graded_scores, List.filterMap_cons, hqt, hqs, h2]
                  rw [hb, hg, assoc_find_append_score, if_neg h2]

theorem assoc_find_build (t : String) (ht : t ≠ "") (qs : List AssessmentQuestion) :
    assoc_find t (build_topic_scores qs)
      = if graded_scores t qs = [] then none else some (graded_scores t qs) := by
  have h := assoc_find_build_aux t ht qs []
  simpa [build_topic_scores, assoc_find] using h

theorem keys_nil {α : Type} : keys ([] : List (String × α)) = [] := rfl

theorem keys_cons {α : Type} (p : String × α) (l : List (String × α)) :
    keys (p :: l) = p.1 :: keys l := rfl

theorem assoc_find_isSome {α : Type} (t : String) (l : List (String × α)) :
    (assoc_find t l).isSome = true ↔ t ∈ keys l := by
  induction l with
  | nil => simp [assoc_find, keys_nil]
  | cons p rest ih =>
      obtain ⟨k, v⟩ := p
      by_cases h : k = t
      · subst h
        simp [assoc_find, keys_cons]
      · have h2 : ¬ (t = k) := fun he => h he.symm
        simp [assoc_find, keys_cons, h, h2, ih]

theorem keys_append_score (acc : List (String × List ℚ)) (t : String) (s : ℚ) :
    keys (append_score acc t s)
      = if (assoc_find t acc).isSome then keys acc else keys acc ++ [t] := by
  induction acc with
  | nil => simp [append_score, keys_nil, keys_cons, assoc_find]
  | cons p rest ih =>
      obtain ⟨k1, v⟩ := p
      by_cases h : k1 = t
      · subst h
        simp [append_score, keys_cons, assoc_find]
      · simp [append_score, h, keys_cons, assoc_find, ih]
        split_ifs <;> simp [keys_cons]

theorem nodup_keys_append_score (acc : List (String × List ℚ)) (t : String) (s : ℚ)
    (h : (keys acc).Nodup) : (keys (append_score acc t s)).Nodup := by
  rw [keys_append_score]
  split_ifs with hs
  · exact h
  · have ht : t ∉ keys acc := fun hm => hs ((assoc_find_isSome t acc).mpr hm)
    simp [List.nodup_append, h, ht]

theorem nodup_keys_build_aux (qs : List AssessmentQuestion) :
    ∀ acc, (keys acc).Nodup → (keys (qs.foldl build_step acc)).Nodup := by
  induction qs with
  | nil => intro acc h; exact h
  | cons q qs ih =>
      intro acc h
      simp only [List.foldl_cons]
      apply ih
      cases hqt : q.topic with
      | none => simpa [build_step, hqt] using h
      | some t2 =>
          cases hqs : q.score with
          | none => simpa [build_step, hqt, hqs] using h
          | some s =>
              by_cases hb : t2 = ""
              · simpa [build_step, hqt, hqs, hb] using h
              · simp only [build_step, hqt, hqs, if_neg hb]
                exact nodup_keys_append_score acc t2 s h

theorem nodup_keys_build (qs : List AssessmentQuestion) :
    (keys (build_topic_scores qs)).Nodup :=
  nodup_keys_build_aux qs [] (by simp [keys_nil])

theorem assoc_find_mem {α : Type} (t : String) (l : List (String × α)) (v : α)
    (h : assoc_find t l = some v) : (t, v) ∈ l := by
  induction l with
  | nil => simp [assoc_find] at h
  | cons p rest ih =>
      obtain ⟨k, v2⟩ := p
      by_cases hk : k = t
      · subst hk
        have h2 : assoc_find k ((k, v2) :: rest) = some v2 := by simp [assoc_find]
        rw [h2] at h
        injection h with h3
        subst h3
        exact List.mem_cons_self _ _
      · simp only [assoc_find, if_neg hk] at h
        exact List.mem_cons_of_mem _ (ih h)

theorem find_topic_update_first_ne (t t2 : String) (ss : List ℚ)
    (store : List TopicMasteryRow) (h : t2 ≠ t) :
    find_topic t (update_first t2 ss store) = find_topic t store := by
  induction store with
  | nil => rfl
  | cons r rest ih =>
      by_cases hr : r.topic = t2
      · have h1 : update_first t2 ss (r :: rest) = update_topic_row ss r :: rest := by
          simp [update_first, hr]
        have h2 : ¬ ((update_topic_row ss r).topic = t) := by
          rw [update_topic_row_topic, hr]; exact h
        have h3 : ¬ (r.topic = t) := by rw [hr]; exact h
        simp [h1, find_topic, h2, h3]
      · have h1 : update_first t2 ss (r :: rest) = r :: update_first t2 ss rest := by
          simp [update_first, hr]
        by_cases hrt : r.topic = t
        · simp [h1, find_topic, hrt]
        · simp [h1, find_topic, hrt, ih]

theorem find_topic_update_first_eq (t : String) (ss : List ℚ)
    (store : List TopicMasteryRow) :
    find_topic t (update_first t ss store)
      = (find_topic t store).map (update_topic_row ss) := by
  induction store with
  | nil => rfl
  | cons r rest ih =>
      by_cases hr : r.topic = t
      · have h1 : update_first t ss (r :: rest) = update_topic_row ss r :: rest := by
          simp [update_first, hr]
        have h2 : (update_topic_row ss r).topic = t := by
          rw [update_topic_row_topic, hr]
        simp [h1, find_topic, h2, hr]
      · have h1 : update_first t ss (r :: rest) = r :: update_first t ss rest := by
          simp [update_first, hr]
        simp [h1, find_topic, hr, ih]

theorem find_topic_fold_absent (t : String) (l : List (String × List ℚ))
    (store : List TopicMasteryRow) (h : t ∉ keys l) :
    find_topic t (update_mastery_from_exam l store) = find_topic t store := by
  induction l generalizing store with
  | nil => rfl
  | cons p l ih =>
      obtain ⟨t1, ss1⟩ := p
      rw [keys_cons] at h
      simp only [List.mem_cons, not_or] at h
      show find_topic t (update_mastery_from_exam l (update_first t1 ss1 store))
        = find_topic t store
      rw [ih (update_first t1 ss1 store) h.2]
      exact find_topic_update_first_ne t t1 ss1 store (fun he => h.1 he.symm)

theorem find_topic_fold_mem (t : String) (ss : List ℚ) (l : List (String × List ℚ))
    (store : List TopicMasteryRow) (hnd : (keys l).Nodup) (hmem : (t, ss) ∈ l) :
    find_topic t (update_mastery_from_exam l store)
      = (find_topic t store).map (update_topic_row ss) := by
  induction l generalizing store with
  | nil => cases hmem
  | cons p l ih =>
      obtain ⟨t1, ss1⟩ := p
      rw [keys_cons] at hnd
      rw [List.nodup_cons] at hnd
      rcases List.mem_cons.mp hmem with heq | hmem2
      · injection heq with ht1 hss1
        subst ht1; subst hss1
        show find_topic t (update_mastery_from_exam l (update_first t ss store))
          = (find_topic t store).map (update_topic_row ss)
        rw [find_topic_fold_absent t l _ hnd.1]
        exact find_topic_update_first_eq t ss store
      · have htk : t ∈ keys l := List.mem_map_of_mem Prod.fst hmem2
        have hne : t1 ≠ t := fun he => hnd.1 (he ▸ htk)
        show find_topic t (update_mastery_from_exam l (update_first t1 ss1 store))
          = (find_topic t store).map (update_topic_row ss)
        rw [ih (update_first t1 ss1 store) hnd.2 hmem2]
        rw [find_topic_update_first_ne t t1 ss1 store hne]

/-- C2: for every completed assessment and every (non-empty-keyed) topic with
at least one graded question whose mastery row exists, `complete_exam` updates
that topic's mastery to `0.6 × old + 0.4 × mean(that topic's graded exam
scores)`, clamped to `[0, 100]`. -/
theorem complete_exam_mastery_blend (qs : List AssessmentQuestion)
    (store : List TopicMasteryRow) (t : String) (r : TopicMasteryRow)
    (ht : t ≠ "") (hg : graded_scores t qs ≠ [])
    (hr : find_topic t store = some r) :
    find_topic t (complete_exam_mastery qs store)
        = some (update_topic_row (graded_scores t qs) r)
  ∧ (update_topic_row (graded_scores t qs) r).mastery_score
        = max 0 (min 100 (r.mastery_score * 0.6
            + ((graded_scores t qs).sum / (graded_scores t qs).length) * 0.4)) := by
  have h3 := assoc_find_build t ht qs
  rw [if_neg hg] at h3
  have hmem := assoc_find_mem t _ _ h3
  have hnd := nodup_keys_build qs
  have h5 := find_topic_fold_mem t (graded_scores t qs) (build_topic_scores qs)
    store hnd hmem
  refine ⟨?_, rfl⟩
  show find_topic t (update_mastery_from_exam (build_topic_scores qs) store)
    = some (update_topic_row (graded_scores t qs) r)
  rw [h5, hr]
  rfl

/-- The spec's end-to-end example: a 4-question exam on one topic with scores
`[100, 100, 0, 0]`, the topic previously at mastery 50. -/
def example_questions : List AssessmentQuestion :=
  [{ question_index := 0, question_type := "mc", question_text := "Q1",
     options := none, correct_answer := some "A", subject := "torts",
     topic := some "negligence", difficulty := 50, score := some 100,
     is_correct := some true },
   { question_index := 1, question_type := "mc", question_text := "Q2",
     options := none, correct_answer := some "B", subject := "torts",
     topic := some "negligence", difficulty := 50, score := some 100,
     is_correct := some true },
   { question_index := 2, question_type := "mc", question_text := "Q3",
     options := none, correct_answer := some "C", subject := "torts",
     topic := some "negligence", difficulty := 50, score := some 0,
     is_correct := some false },
   { question_index := 3, question_type := "mc", question_text := "Q4",
     options := none, correct_answer := some "D", subject := "torts",
     topic := some "negligence", difficulty := 50, score := some 0,
     is_correct := some false }]

def example_row : TopicMasteryRow :=
  { topic := "negligence", mastery_score := 50, exposure_count := 0,
    correct_count := 0, incorrect_count := 0 }

/-- Witness for C2: the spec's example — mastery 50 with scores
`[100, 100, 0, 0]` stays at exactly 50 after `complete_exam`. -/
theorem complete_exam_mastery_blend_witness :
    (find_topic "negligence" (complete_exam_mastery example_questions [example_row])
        = some (update_topic_row (graded_scores "negligence" example_questions)
            example_row)
     ∧ (update_topic_row (graded_scores "negligence" example_questions)
            example_row).mastery_score
        = max 0 (min 100 (example_row.mastery_score * 0.6
            + ((graded_scores "negligence" example_questions).sum
                / (graded_scores "negligence" example_questions).length) * 0.4)))
  ∧ (update_topic_row (graded_scores "negligence" example_questions)
        example_row).mastery_score = 50 := by
  have hscores : graded_scores "negligence" example_questions
      = [100, 100, 0, 0] := by
    simp [graded_scores, example_questions, List.filterMap_cons]
  constructor
  · exact complete_exam_mastery_blend example_questions [example_row] "negligence"
      example_row (by simp) (by rw [hscores]; simp) (by simp [find_topic, example_row])
  · rw [hscores]
    norm_num [update_topic_row, example_row]

end LawFlow
